import Mathlib

/-!
Shallow embedding of the view layer of the `django_local_library` catalog
application (`src/catalog/views.py`), together with proofs of the behavioural
properties stated in the specification.

Modelling conventions:
* Calendar dates are day ordinals (`Nat`); `weeks=3` is 21 days, `weeks=4` is
  28 days.  Only comparisons and additions of dates occur in the code.
* Database rows are Lean structures, a table is a `List` of rows; Django
  queryset combinators become `List.filter` / `List.length` / `mergeSort`.
* The session is the stored value of the `num_visits` key (`Option Nat`,
  `none` when the key is absent), mirroring `request.session.get` /
  `request.session[...] = ...`.
* The caller carries the authentication flag and the
  `catalog.can_mark_returned` permission; the framework decorators and mixins
  (`login_required`, `permission_required(..., raise_exception=True)`,
  `LoginRequiredMixin`, `PermissionRequiredMixin`) become explicit
  short-circuiting checks producing `loginRedirect` / `forbidden` responses.
-/

namespace LocalLibrary

/-- Loan status of a `BookInstance`.  Modelled from the spec: the status
enumeration {maintenance, on loan, available, reserved} is declared in
`catalog/models.py`, which is not under `src/`; the views filter on its
single-character database codes (`status__exact='a'`, `status__exact='o'`). -/
inductive LoanStatus where
  | maintenance
  | onLoan
  | available
  | reserved
deriving DecidableEq, Repr

/-- Single-character database code of a loan status, as used by the views'
`status__exact` filters. -/
def LoanStatus.code : LoanStatus → Char
  | .maintenance => 'm'
  | .onLoan => 'o'
  | .available => 'a'
  | .reserved => 'r'

/-- An `Author` row (fields per the spec's data model §3). -/
structure Author where
  id : Nat
  first_name : String
  last_name : String
  date_of_birth : Option Nat
  date_of_death : Option Nat
deriving DecidableEq, Repr

/-- A `Genre` row. -/
structure Genre where
  id : Nat
  name : String
deriving DecidableEq, Repr

/-- A `Book` row (fields per the spec's data model §3); `author` and
`language` are foreign keys, `genre` is the many-to-many id set. -/
structure Book where
  id : Nat
  title : String
  author : Option Nat
  summary : String
  isbn : String
  genre : List Nat
  language : Option Nat
deriving DecidableEq, Repr

/-- A `BookInstance` row: a trackable copy with loan status, optional due
date and optional borrower (a caller id). -/
structure BookInstance where
  id : Nat
  book : Nat
  imprint : String
  due_back : Option Nat
  status : LoanStatus
  borrower : Option Nat
deriving DecidableEq, Repr

/-- The catalog store: one list per table. -/
structure Catalog where
  books : List Book
  instances : List BookInstance
  authors : List Author
  genres : List Genre
deriving DecidableEq, Repr

/-- The caller identity seen by the view layer: its user id, whether it is
authenticated, and whether it holds the `catalog.can_mark_returned`
permission. -/
structure Caller where
  id : Nat
  authenticated : Bool
  canMarkReturned : Bool
deriving DecidableEq, Repr

/-- `request.user.has_perm('catalog.can_mark_returned')`: an anonymous
caller holds no permission. -/
def Caller.hasPerm (u : Caller) : Bool :=
  u.authenticated && u.canMarkReturned

/-- Does the character list `needle` occur at the head of `hay`? -/
def startsWithL : List Char → List Char → Bool
  | [], _ => true
  | _ :: _, [] => false
  | a :: as, b :: bs => a == b && startsWithL as bs

/-- Does the character list `needle` occur contiguously anywhere in `hay`? -/
def containsSeg (needle : List Char) : List Char → Bool
  | [] => startsWithL needle []
  | c :: t => startsWithL needle (c :: t) || containsSeg needle t

/-- Lower-cased character content of a string (`str.lower()` on the ASCII
titles involved). -/
def lowerData (s : String) : List Char :=
  s.data.map Char.toLower

/-- Modelled from the spec: the `title__contains` queryset lookup.  The
database backend (project settings, not under `src/`) gives this lookup the
behaviour the spec states in §4.2/§8 — case-insensitive substring matching —
so both the needle and the haystack are compared lower-cased. -/
def titleContainsLookup (needle hay : String) : Bool :=
  containsSeg (lowerData needle) (lowerData hay)

/-- `str.lower()` as applied by `index` to its hard-coded search string. -/
def pyLower (s : String) : String :=
  ⟨s.data.map Char.toLower⟩

/-- The context dictionary rendered by the home-page view `index`. -/
structure IndexContext where
  num_books : Nat
  num_instances : Nat
  num_instances_available : Nat
  num_authors : Nat
  num_genre : Nat
  num_title : Nat
  num_visits : Nat
deriving DecidableEq, Repr

/-- The home-page view `index(request)`: computes the six counters, reads the
session visit counter (default 0), stores its successor back, and renders the
context.  Returns the rendered context together with the session value after
the request. -/
def index (c : Catalog) (session : Option Nat) : IndexContext × Option Nat :=
  let num_books := c.books.length
  let num_instances := c.instances.length
  let num_instances_available :=
    (c.instances.filter (fun bi => bi.status.code == 'a')).length
  let num_authors := c.authors.length
  let num_visits := session.getD 0
  let sessionAfter := some (num_visits + 1)
  let num_genre := c.genres.length
  let title := "game of thrones"
  let num_title :=
    (c.books.filter (fun b => titleContainsLookup (pyLower title) b.title)).length
  (⟨num_books, num_instances, num_instances_available, num_authors,
    num_genre, num_title, num_visits⟩, sessionAfter)

/-- Ascending order on `due_back` used by `order_by('due_back')`; a `NULL`
due date sorts before every concrete date (the backend's default NULL
placement for ascending order). -/
def dueLe (a b : BookInstance) : Bool :=
  match a.due_back, b.due_back with
  | none, _ => true
  | some _, none => false
  | some x, some y => decide (x ≤ y)

/-- `order_by('due_back')` on a queryset. -/
def orderByDueBack (l : List BookInstance) : List BookInstance :=
  l.mergeSort dueLe

/-- Outcome of a permission- or login-guarded list view. -/
inductive ListResponse where
  | ok (items : List BookInstance)
  | loginRedirect
  | forbidden
deriving DecidableEq, Repr

/-- `LoanedBooksByUserListView.get_queryset`: the caller's on-loan instances
ordered by due date. -/
def loanedBooksByUserQueryset (c : Catalog) (u : Caller) : List BookInstance :=
  orderByDueBack
    ((c.instances.filter (fun bi => bi.borrower == some u.id)).filter
      (fun bi => bi.status.code == 'o'))

/-- `LoanedBooksByUserListView` with its `LoginRequiredMixin`: unauthenticated
callers are redirected to login, others get the queryset. -/
def loanedBooksByUserListView (c : Catalog) (u : Caller) : ListResponse :=
  if u.authenticated then .ok (loanedBooksByUserQueryset c u)
  else .loginRedirect

/-- `BorrowedListView.get_queryset`: every on-loan instance, ordered by due
date. -/
def borrowedQueryset (c : Catalog) : List BookInstance :=
  orderByDueBack (c.instances.filter (fun bi => bi.status.code == 'o'))

/-- `BorrowedListView` with its `PermissionRequiredMixin`
(`permission_required = 'catalog.can_mark_returned'`): callers holding the
permission get the queryset; authenticated callers lacking it get
`PermissionDenied`; anonymous callers are redirected to login. -/
def borrowedListView (c : Catalog) (u : Caller) : ListResponse :=
  if u.hasPerm then .ok (borrowedQueryset c)
  else if u.authenticated then .forbidden
  else .loginRedirect

/-- The raw `renewal_date` field of a renewal submission: either text that
does not parse as a calendar date, or a parsed date. -/
inductive SubmittedDate where
  | malformed
  | parsed (d : Nat)
deriving DecidableEq, Repr

/-- Modelled from the spec: `RenewBookForm.clean_renewal_date`
(`catalog/forms.py`, not under `src/`).  The submitted value must parse as a
calendar date, must not be in the past relative to today, and must not be
more than 4 weeks (28 days) in the future; cleaning yields the date on
success and fails otherwise. -/
def cleanRenewalDate (today : Nat) : SubmittedDate → Option Nat
  | .malformed => none
  | .parsed d => if today ≤ d && d ≤ today + 28 then some d else none

/-- Outcome of the `renew_book_librarian` view. -/
inductive RenewResponse where
  | loginRedirect
  | forbidden
  | notFound
  | redirectAllBorrowed
  | renderForm (value : SubmittedDate) (hasErrors : Bool)
deriving DecidableEq, Repr

/-- `book_instance.due_back = d; book_instance.save()`: update the `due_back`
field of the row keyed by `pk`. -/
def saveDueBack (l : List BookInstance) (pk d : Nat) : List BookInstance :=
  l.map (fun bi => if bi.id == pk then { bi with due_back := some d } else bi)

/-- `renew_book_librarian(request, pk)`: the decorators run first
(`login_required`, then `permission_required('catalog.can_mark_returned',
raise_exception=True)`), then `get_object_or_404`, then the POST branch
(bind and validate the form; on success save `due_back` and redirect to the
`all-borrowed` view, on failure re-render the bound form with its errors) or
the non-POST branch (render a fresh form pre-filled with today + 3 weeks).
Returns the response together with the catalog after the request. -/
def renew (today : Nat) (u : Caller) (c : Catalog) (pk : Nat)
    (method : String) (body : SubmittedDate) : RenewResponse × Catalog :=
  if !u.authenticated then (.loginRedirect, c)
  else if !u.canMarkReturned then (.forbidden, c)
  else
    match c.instances.find? (fun bi => bi.id == pk) with
    | none => (.notFound, c)
    | some _ =>
      if method == "POST" then
        match cleanRenewalDate today body with
        | some d =>
          (.redirectAllBorrowed, { c with instances := saveDueBack c.instances pk d })
        | none => (.renderForm body true, c)
      else
        (.renderForm (.parsed (today + 21)) false, c)

/-- A concrete on-loan copy used to instantiate the theorems below. -/
def sampleInstance : BookInstance :=
  ⟨2, 1, "copy-1", some 3, .onLoan, some 9⟩

/-- A concrete catalog state used to instantiate the theorems below. -/
def sampleCatalog : Catalog :=
  ⟨[⟨1, "A Game of Thrones", none, "", "9780553103540", [], none⟩],
    [sampleInstance], [], []⟩

/-- An authenticated caller holding `catalog.can_mark_returned`. -/
def librarian : Caller := ⟨9, true, true⟩

/-- An authenticated caller without `catalog.can_mark_returned`. -/
def member : Caller := ⟨7, true, false⟩

theorem startsWithL_iff (n h : List Char) :
    startsWithL n h = true ↔ ∃ q, h = n ++ q := by
  induction n generalizing h with
  | nil => simp [startsWithL]
  | cons a as ih =>
    cases h with
    | nil => simp [startsWithL]
    | cons b bs =>
      simp only [startsWithL, Bool.and_eq_true, beq_iff_eq, ih, List.cons_append,
        List.cons.injEq]
      constructor
      · rintro ⟨rfl, q, rfl⟩; exact ⟨q, rfl, rfl⟩
      · rintro ⟨q, rfl, rfl⟩; exact ⟨rfl, q, rfl⟩

theorem containsSeg_iff (n h : List Char) :
    containsSeg n h = true ↔ ∃ p q, h = p ++ n ++ q := by
  induction h with
  | nil =>
    simp only [containsSeg, startsWithL_iff]
    constructor
    · rintro ⟨q, hq⟩
      exact ⟨[], q, by simpa using hq⟩
    · rintro ⟨p, q, hpq⟩
      rcases List.append_eq_nil.mp ((List.append_eq_nil.mp hpq.symm)).1 with ⟨rfl, rfl⟩
      exact ⟨q, by simpa using hpq⟩
  | cons c t ih =>
    simp only [containsSeg, Bool.or_eq_true, startsWithL_iff, ih]
    constructor
    · rintro (⟨q, hq⟩ | ⟨p, q, rfl⟩)
      · exact ⟨[], q, by simpa using hq⟩
      · exact ⟨c :: p, q, by simp⟩
    · rintro ⟨p, q, hpq⟩
      cases p with
      | nil => exact Or.inl ⟨q, by simpa using hpq⟩
      | cons x xs =>
        right
        simp only [List.cons_append, List.cons.injEq] at hpq
        exact ⟨xs, q, hpq.2⟩

theorem orderByDueBack_perm (l : List BookInstance) : (orderByDueBack l).Perm l :=
  List.mergeSort_perm l dueLe

theorem dueLe_total (a b : BookInstance) : dueLe a b || dueLe b a := by
  unfold dueLe
  cases a.due_back <;> cases b.due_back <;> simp <;> omega

theorem dueLe_trans (a b c : BookInstance) :
    dueLe a b = true → dueLe b c = true → dueLe a c = true := by
  simp only [dueLe]
  rcases a.due_back with _ | x <;> rcases b.due_back with _ | y <;>
    rcases c.due_back with _ | z <;> simp <;> omega

theorem orderByDueBack_sorted (l : List BookInstance) :
    (orderByDueBack l).Pairwise (fun a b => dueLe a b = true) :=
  List.sorted_mergeSort dueLe_trans dueLe_total l

theorem code_o_iff (s : LoanStatus) : (s.code == 'o') = (s == LoanStatus.onLoan) := by
  cases s <;> rfl

theorem code_a_iff (s : LoanStatus) : (s.code == 'a') = (s == LoanStatus.available) := by
  cases s <;> rfl

theorem find_inst (c : Catalog) (pk : Nat) (bi : BookInstance)
    (hbi : bi ∈ c.instances) (hpk : bi.id = pk) :
    ∃ w, c.instances.find? (fun x => x.id == pk) = some w := by
  rw [← Option.isSome_iff_exists, List.find?_isSome]
  exact ⟨bi, hbi, by simp [hpk]⟩

/-- C1: for every existing BookInstance id and every submitted date that
parses, is not before today and is not more than 4 weeks after today, a
permitted caller's renew POST succeeds: the response is the redirect to the
"all borrowed" view, the stored row keyed by the id has `due_back` equal to
the submitted date, the updated row is persisted, and rows with other ids
are untouched. -/
theorem renew_valid_post_succeeds (today d pk : Nat) (u : Caller) (c : Catalog)
    (bi : BookInstance)
    (hu : u.authenticated = true) (hp : u.canMarkReturned = true)
    (hbi : bi ∈ c.instances) (hpk : bi.id = pk)
    (hlo : today ≤ d) (hhi : d ≤ today + 28) :
    (renew today u c pk "POST" (.parsed d)).1 = RenewResponse.redirectAllBorrowed ∧
    { bi with due_back := some d } ∈ (renew today u c pk "POST" (.parsed d)).2.instances ∧
    (∀ x ∈ (renew today u c pk "POST" (.parsed d)).2.instances,
      x.id = pk → x.due_back = some d) ∧
    (∀ x ∈ (renew today u c pk "POST" (.parsed d)).2.instances,
      x.id ≠ pk → x ∈ c.instances) := by
  obtain ⟨w, hw⟩ := find_inst c pk bi hbi hpk
  have hcond : (today ≤ d && d ≤ today + 28) = true := by simp [hlo, hhi]
  have hclean : cleanRenewalDate today (.parsed d) = some d := by
    simp [cleanRenewalDate, hcond]
  have hren : renew today u c pk "POST" (.parsed d)
      = (.redirectAllBorrowed, { c with instances := saveDueBack c.instances pk d }) := by
    simp [renew, hu, hp, hw, hclean]
  rw [hren]
  refine ⟨rfl, ?_, ?_, ?_⟩
  · have hb : ({ bi with due_back := some d } : BookInstance)
        = (fun x => if x.id == pk then { x with due_back := some d } else x) bi := by
      simp [hpk]
    rw [hb]
    exact List.mem_map_of_mem _ hbi
  · intro x hx hxpk
    simp only [saveDueBack, List.mem_map] at hx
    obtain ⟨y, hy, rfl⟩ := hx
    by_cases hy2 : y.id = pk
    · simp [hy2]
    · simp only [beq_iff_eq, if_neg hy2] at hxpk ⊢
      exact absurd hxpk hy2
  · intro x hx hxpk
    simp only [saveDueBack, List.mem_map] at hx
    obtain ⟨y, hy, rfl⟩ := hx
    by_cases hy2 : y.id = pk
    · exfalso
      apply hxpk
      simp [hy2]
    · simp only [beq_iff_eq, if_neg hy2]
      exact hy

/-- Witness for C1, at a concrete catalog, caller and date. -/
theorem renew_valid_post_succeeds_witness :
    librarian.authenticated = true ∧ librarian.canMarkReturned = true ∧
    sampleInstance ∈ sampleCatalog.instances ∧ sampleInstance.id = 2 ∧
    (100 : Nat) ≤ 110 ∧ (110 : Nat) ≤ 100 + 28 ∧
    ((renew 100 librarian sampleCatalog 2 "POST" (.parsed 110)).1
        = RenewResponse.redirectAllBorrowed ∧
      { sampleInstance with due_back := some 110 }
        ∈ (renew 100 librarian sampleCatalog 2 "POST" (.parsed 110)).2.instances ∧
      (∀ x ∈ (renew 100 librarian sampleCatalog 2 "POST" (.parsed 110)).2.instances,
        x.id = 2 → x.due_back = some 110) ∧
      (∀ x ∈ (renew 100 librarian sampleCatalog 2 "POST" (.parsed 110)).2.instances,
        x.id ≠ 2 → x ∈ sampleCatalog.instances)) :=
  ⟨rfl, rfl, by decide, rfl, by decide, by decide,
    renew_valid_post_succeeds 100 110 2 librarian sampleCatalog sampleInstance
      rfl rfl (by decide) rfl (by decide) (by decide)⟩

/-- C2: for a permitted caller and an existing instance, a POST whose
submitted date is strictly before today or strictly more than 4 weeks after
today fails validation: the catalog (hence the instance's `due_back` and
every other field) is unchanged, and the response re-renders the same form
bound to the invalid value with errors. -/
theorem renew_invalid_post_rerenders (today d pk : Nat) (u : Caller) (c : Catalog)
    (bi : BookInstance)
    (hu : u.authenticated = true) (hp : u.canMarkReturned = true)
    (hbi : bi ∈ c.instances) (hpk : bi.id = pk)
    (hbad : d < today ∨ today + 28 < d) :
    renew today u c pk "POST" (.parsed d)
      = (RenewResponse.renderForm (.parsed d) true, c) := by
  obtain ⟨w, hw⟩ := find_inst c pk bi hbi hpk
  have hcond : (today ≤ d && d ≤ today + 28) = false := by
    rcases hbad with h | h <;> simp <;> omega
  have hclean : cleanRenewalDate today (.parsed d) = none := by
    simp [cleanRenewalDate, hcond]
  simp [renew, hu, hp, hw, hclean]

/-- Witness for C2, at a concrete date strictly before today. -/
theorem renew_invalid_post_rerenders_witness :
    librarian.authenticated = true ∧ librarian.canMarkReturned = true ∧
    sampleInstance ∈ sampleCatalog.instances ∧ sampleInstance.id = 2 ∧
    ((99 : Nat) < 100 ∨ (100 : Nat) + 28 < 99) ∧
    renew 100 librarian sampleCatalog 2 "POST" (.parsed 99)
      = (RenewResponse.renderForm (.parsed 99) true, sampleCatalog) :=
  ⟨rfl, rfl, by decide, rfl, Or.inl (by decide),
    renew_invalid_post_rerenders 100 99 2 librarian sampleCatalog sampleInstance
      rfl rfl (by decide) rfl (Or.inl (by decide))⟩

/-- C3: the home page's `num_title` counter equals, in every catalog state,
the number of books whose title contains the substring "game of thrones"
case-insensitively — characterised as: the lower-cased title splits as
`p ++ "game of thrones" ++ q`; in particular a book titled
"A Game of Thrones" matches. -/
theorem index_num_title_spec (c : Catalog) (s : Option Nat) :
    (index c s).1.num_title =
      (c.books.filter (fun b => titleContainsLookup "game of thrones" b.title)).length ∧
    (∀ b : Book, titleContainsLookup "game of thrones" b.title = true ↔
      ∃ p q, lowerData b.title = p ++ "game of thrones".data ++ q) ∧
    titleContainsLookup "game of thrones" "A Game of Thrones" = true := by
  refine ⟨?_, ?_, by decide⟩
  · rfl
  · intro b
    rw [titleContainsLookup, containsSeg_iff]
    have hlow : lowerData "game of thrones" = "game of thrones".data := by decide
    rw [hlow]

/-- C4 counterexample: the claim quantifies over every caller "whatever
permissions the caller holds", but for an authenticated caller lacking the
permission a renew on a nonexistent id is rejected as Forbidden by the
`permission_required` decorator, which runs before `get_object_or_404` —
not as NotFound. -/
theorem renew_missing_any_caller_cex :
    (renew 0 member ⟨[], [], [], []⟩ 5 "POST" (.parsed 0)).1 = RenewResponse.forbidden ∧
    RenewResponse.forbidden ≠ RenewResponse.notFound := by
  decide

/-- C4 (amended): for every instance id with no matching BookInstance, a
renew request by an authenticated caller holding the "can mark books
returned" permission fails with NotFound, for every method and body; callers
failing the authentication or permission checks are rejected earlier with a
login redirect or Forbidden. -/
theorem renew_missing_notFound (today pk : Nat) (u : Caller) (c : Catalog)
    (method : String) (body : SubmittedDate)
    (hu : u.authenticated = true) (hp : u.canMarkReturned = true)
    (habs : ∀ x ∈ c.instances, x.id ≠ pk) :
    renew today u c pk method body = (RenewResponse.notFound, c) := by
  have hfind : c.instances.find? (fun x => x.id == pk) = none := by
    rw [List.find?_eq_none]
    intro x hx
    simpa using habs x hx
  simp [renew, hu, hp, hfind]

/-- Witness for the amended C4, at an id matching no instance. -/
theorem renew_missing_notFound_witness :
    librarian.authenticated = true ∧ librarian.canMarkReturned = true ∧
    (∀ x ∈ sampleCatalog.instances, x.id ≠ 5) ∧
    renew 100 librarian sampleCatalog 5 "POST" (.parsed 110)
      = (RenewResponse.notFound, sampleCatalog) :=
  ⟨rfl, rfl, by decide,
    renew_missing_notFound 100 5 librarian sampleCatalog "POST" (.parsed 110)
      rfl rfl (by decide)⟩

/-- C5: every authenticated caller lacking the "can mark books returned"
permission is rejected with Forbidden before any lookup or mutation — for
every catalog state, id, method and body — and the catalog (hence every
instance's `due_back`) is unchanged. -/
theorem renew_forbidden_without_permission (today pk : Nat) (u : Caller) (c : Catalog)
    (method : String) (body : SubmittedDate)
    (hu : u.authenticated = true) (hp : u.canMarkReturned = false) :
    renew today u c pk method body = (RenewResponse.forbidden, c) := by
  simp [renew, hu, hp]

/-- Witness for C5, at an existing instance and a valid date. -/
theorem renew_forbidden_without_permission_witness :
    member.authenticated = true ∧ member.canMarkReturned = false ∧
    renew 100 member sampleCatalog 2 "POST" (.parsed 110)
      = (RenewResponse.forbidden, sampleCatalog) :=
  ⟨rfl, rfl,
    renew_forbidden_without_permission 100 2 member sampleCatalog "POST"
      (.parsed 110) rfl rfl⟩

/-- C6: for every authenticated caller the "my borrowed" view succeeds and
its result set is exactly (a permutation of) the instances whose borrower is
the caller and whose status is on-loan, sorted ascending by `due_back`
(NULL due dates first, ties in any order). -/
theorem loanedBooksByUser_spec (c : Catalog) (u : Caller)
    (hu : u.authenticated = true) :
    ∃ l, loanedBooksByUserListView c u = .ok l ∧
      l.Perm (c.instances.filter
        (fun bi => bi.borrower == some u.id && bi.status == LoanStatus.onLoan)) ∧
      l.Pairwise (fun a b => dueLe a b = true) := by
  refine ⟨loanedBooksByUserQueryset c u, by simp [loanedBooksByUserListView, hu], ?_,
    orderByDueBack_sorted _⟩
  unfold loanedBooksByUserQueryset
  refine (orderByDueBack_perm _).trans ?_
  rw [List.filter_filter]
  exact List.Perm.of_eq (List.filter_congr (fun x _ => by rw [code_o_iff, Bool.and_comm]))

/-- Witness for C6, at a concrete authenticated caller and catalog. -/
theorem loanedBooksByUser_spec_witness :
    librarian.authenticated = true ∧
    ∃ l, loanedBooksByUserListView sampleCatalog librarian = .ok l ∧
      l.Perm (sampleCatalog.instances.filter
        (fun bi => bi.borrower == some librarian.id && bi.status == LoanStatus.onLoan)) ∧
      l.Pairwise (fun a b => dueLe a b = true) :=
  ⟨rfl, loanedBooksByUser_spec sampleCatalog librarian rfl⟩

/-- C7: for every catalog state, a caller holding the "can mark books
returned" permission gets from the "all borrowed" view exactly (a
permutation of) the on-loan instances, regardless of borrower, sorted
ascending by `due_back`; an authenticated caller lacking the permission gets
Forbidden, and no caller lacking the permission ever gets a result list
(empty or otherwise). -/
theorem borrowedListView_spec (c : Catalog) (u : Caller) :
    (u.hasPerm = true →
      ∃ l, borrowedListView c u = .ok l ∧
        l.Perm (c.instances.filter (fun bi => bi.status == LoanStatus.onLoan)) ∧
        l.Pairwise (fun a b => dueLe a b = true)) ∧
    (u.authenticated = true → u.canMarkReturned = false →
      borrowedListView c u = .forbidden) ∧
    (u.hasPerm = false → ∀ l, borrowedListView c u ≠ .ok l) := by
  refine ⟨?_, ?_, ?_⟩
  · intro hp
    refine ⟨borrowedQueryset c, by simp [borrowedListView, hp], ?_,
      orderByDueBack_sorted _⟩
    unfold borrowedQueryset
    refine (orderByDueBack_perm _).trans ?_
    exact List.Perm.of_eq (List.filter_congr (fun x _ => code_o_iff x.status))
  · intro ha hp
    simp [borrowedListView, Caller.hasPerm, ha, hp]
  · intro hp l
    unfold borrowedListView
    rw [hp]
    by_cases ha : u.authenticated = true <;> simp [ha]

/-- Witness for C7, at a concrete permitted caller and catalog. -/
theorem borrowedListView_spec_witness :
    librarian.hasPerm = true ∧
    ∃ l, borrowedListView sampleCatalog librarian = .ok l ∧
      l.Perm (sampleCatalog.instances.filter
        (fun bi => bi.status == LoanStatus.onLoan)) ∧
      l.Pairwise (fun a b => dueLe a b = true) :=
  ⟨rfl, (borrowedListView_spec sampleCatalog librarian).1 rfl⟩

/-- C8: for every catalog state, the home page's `num_instances_available`
counter equals the number of BookInstances whose status is available. -/
theorem index_num_instances_available_spec (c : Catalog) (s : Option Nat) :
    (index c s).1.num_instances_available =
      (c.instances.filter (fun bi => bi.status == LoanStatus.available)).length := by
  show (c.instances.filter (fun bi => bi.status.code == 'a')).length = _
  rw [List.filter_congr (fun x _ => code_a_iff x.status)]

/-- C9: for a permitted caller and an existing instance, every non-POST
renew request renders the form pre-populated with today plus exactly
3 weeks (21 days), without errors, and leaves the catalog (hence the
instance's `due_back`) unchanged. -/
theorem renew_get_default_form (today pk : Nat) (u : Caller) (c : Catalog)
    (bi : BookInstance) (method : String) (body : SubmittedDate)
    (hu : u.authenticated = true) (hp : u.canMarkReturned = true)
    (hbi : bi ∈ c.instances) (hpk : bi.id = pk) (hm : method ≠ "POST") :
    renew today u c pk method body
      = (RenewResponse.renderForm (.parsed (today + 21)) false, c) := by
  obtain ⟨w, hw⟩ := find_inst c pk bi hbi hpk
  simp [renew, hu, hp, hw, hm]

/-- Witness for C9, at a concrete GET request. -/
theorem renew_get_default_form_witness :
    librarian.authenticated = true ∧ librarian.canMarkReturned = true ∧
    sampleInstance ∈ sampleCatalog.instances ∧ sampleInstance.id = 2 ∧
    ("GET" : String) ≠ "POST" ∧
    renew 100 librarian sampleCatalog 2 "GET" .malformed
      = (RenewResponse.renderForm (.parsed 121) false, sampleCatalog) :=
  ⟨rfl, rfl, by decide, rfl, by decide,
    renew_get_default_form 100 2 librarian sampleCatalog sampleInstance "GET"
      .malformed rfl rfl (by decide) rfl (by decide)⟩

/-- C10: the home page displays the pre-increment visit count: with a stored
session counter n (default 0 when absent) the rendered `num_visits` is n and
the counter stored back is n + 1; a first visit displays 0. -/
theorem index_visit_counter_spec (c : Catalog) (s : Option Nat) :
    (index c s).1.num_visits = s.getD 0 ∧
    (index c s).2 = some (s.getD 0 + 1) ∧
    (index c none).1.num_visits = 0 :=
  ⟨rfl, rfl, rfl⟩

end LocalLibrary
